import Mathlib

/-!
Shallow embedding of `src/glanvup/floodzard.py` (class `FloodProcess`),
the raster-clip / raster-vectorize / spatial-overlay pipeline, together
with executable models of the rasterio and geopandas library operations
the code calls.  Coordinates are rationals, pixel values are integers.
-/

namespace Glanvup

/-! ## Geometry primitives -/

/-- An axis-aligned bounding box `[x0, x1] × [y0, y1]` in geographic
coordinates.  Used to model a raster extent and a region geometry's
bounds, as consumed by rasterio's window computation. -/
structure Box where
  x0 : ℚ
  y0 : ℚ
  x1 : ℚ
  y1 : ℚ
deriving DecidableEq, Repr

/-- Whether two boxes overlap with positive extent in both axes
(model of rasterio window intersection: touching edges do not count). -/
def Box.intersects (a b : Box) : Bool :=
  a.x0 < b.x1 && b.x0 < a.x1 && a.y0 < b.y1 && b.y0 < a.y1

/-- Intersection box (the cropped window extent). -/
def Box.inter (a b : Box) : Box :=
  ⟨max a.x0 b.x0, max a.y0 b.y0, min a.x1 b.x1, min a.y1 b.y1⟩

/-- An affine pixel-to-geographic transform, as in `affine.Affine`:
`(x, y) ↦ (a·x + b·y + c, d·x + e·y + f)`. -/
structure Affine where
  a : ℚ
  b : ℚ
  c : ℚ
  d : ℚ
  e : ℚ
  f : ℚ
deriving DecidableEq, Repr

/-- `src.transform * (x, y)` — the transform applied to one vertex
(floodzard.py line 156). -/
def Affine.apply (t : Affine) (p : ℚ × ℚ) : ℚ × ℚ :=
  (t.a * p.1 + t.b * p.2 + t.c, t.d * p.1 + t.e * p.2 + t.f)

/-! ## Raster clipping — `FloodProcess.process_flood_tiff`, lines 70–106 -/

/-- The error raised by the rasterio library inside the clip step. -/
inductive MaskError where
  | valueError
deriving DecidableEq, Repr

/-- Model of the library call `rasterio.mask.mask(hazard, coords, crop = True)`
(floodzard.py line 87).  Per rasterio's `raster_geometry_mask`: the window is
computed from the shape bounds; if the shapes do not overlap the raster and
`crop` is `True`, a `ValueError` ("Input shapes do not overlap raster.") is
raised; otherwise the raster is cropped to the intersection window. -/
def rasterio_mask_crop (raster : Box) (shape : Box) : Except MaskError Box :=
  if raster.intersects shape then .ok (raster.inter shape) else .error .valueError

/-- The clip step of `process_flood_tiff` for one region (lines 84–94):
the region geometry is converted to GeoJSON coordinates and passed to
`mask(hazard, coords, crop = True)`.  There is no exception handler
anywhere in `process_flood_tiff`, so an error from `mask` propagates. -/
def process_flood_tiff_clip (hazardExtent : Box) (regionBounds : Box) :
    Except MaskError Box :=
  rasterio_mask_crop hazardExtent regionBounds

/-- `gid_level = 'GID_{}'.format(gid_region)` (floodzard.py line 52):
the column name for the configured administrative level. -/
def gid_level (gid_region : ℕ) : String :=
  "GID_" ++ toString gid_region

/-! ## Raster vectorization — `FloodProcess.process_tif`, lines 136–172 -/

/-- One item yielded by `rasterio.features.shapes(array)` (line 143):
`vec[0]` is a GeoJSON polygon dict — `vec[0]['type']` and
`vec[0]['coordinates']`, a list of rings, the exterior ring first, each
ring a closed list of `(x, y)` pixel-coordinate vertices — and `vec[1]`
is the pixel value shared by the traced connected region. -/
structure RShape where
  gtype : String
  rings : List (List (ℚ × ℚ))
  value : ℤ
deriving DecidableEq, Repr

/-- One feature dict appended to `output` (lines 160–169): the geometry
holds exactly the transformed first ring, `'coordinates': [coords]`. -/
structure OutFeature where
  gtype : String
  coordinates : List (List (ℚ × ℚ))
  value : ℤ
deriving DecidableEq, Repr

/-- The body of the `for vec in rasterio.features.shapes(array)` loop
(lines 143–169): keep the shape only if `vec[1] > 0 and not vec[1] == 255`;
take the first coordinate ring `vec[0]['coordinates'][0]`; apply
`src.transform` to every vertex individually; emit a single-ring polygon
feature carrying the value. -/
def processShape (t : Affine) (s : RShape) : Option OutFeature :=
  if s.value > 0 ∧ ¬s.value = 255 then
    let coordinates := s.rings.headD []
    let coords := coordinates.map (fun i => t.apply i)
    some { gtype := s.gtype, coordinates := [coords], value := s.value }
  else
    none

/-- The vectorization pass of `process_tif` over one opened raster:
the `output` list accumulated by the loop of lines 141–169, given the
raster's transform and the sequence yielded by `rasterio.features.shapes`. -/
def process_tif (t : Affine) (shps : List RShape) : List OutFeature :=
  shps.filterMap (processShape t)

/-! ## Model of `rasterio.features.shapes` (library)

`rasterio.features.shapes(array)` yields one `(geometry, value)` pair per
4-connected component of equal-valued pixels, in raster-scan order of the
component's first pixel; the geometry is a GeoJSON polygon in pixel
coordinates (`x` = column, `y` = row), whose exterior ring starts at the
top-left corner of the component's first pixel and walks the boundary with
the component's interior on the left (for a single pixel at row `r`,
column `c`: `[(c,r), (c,r+1), (c+1,r+1), (c+1,r), (c,r)]`). -/

/-- A raster grid as a list of rows of pixel values (`src.read(1)`). -/
abbrev Grid : Type := List (List ℤ)

/-- Number of rows. -/
def Grid.h (g : Grid) : ℕ := List.length g

/-- Number of columns (of the first row; the grid is rectangular). -/
def Grid.w (g : Grid) : ℕ := (List.headD g []).length

/-- Pixel value at `(row, col)`, with a default of 0 out of range. -/
def Grid.val (g : Grid) (rc : ℕ × ℕ) : ℤ :=
  ((List.getD g rc.1 []).getD rc.2 0)

/-- All `(row, col)` cells of an `h × w` grid in raster-scan order. -/
def cellsOf (h w : ℕ) : List (ℕ × ℕ) :=
  (List.range h).flatMap (fun r => (List.range w).map (fun c => (r, c)))

/-- The 4-neighbours of a cell (clipped at the zero edges). -/
def neighbors (rc : ℕ × ℕ) : List (ℕ × ℕ) :=
  [(rc.1 + 1, rc.2), (rc.1, rc.2 + 1)]
    ++ (if rc.1 > 0 then [(rc.1 - 1, rc.2)] else [])
    ++ (if rc.2 > 0 then [(rc.1, rc.2 - 1)] else [])

/-- Cell in the `h × w` range. -/
def inBounds (h w : ℕ) (rc : ℕ × ℕ) : Bool :=
  rc.1 < h && rc.2 < w

/-- One expansion step of a flood fill: adjoin every in-range neighbour of
the current component that holds value `v` and is not yet included. -/
def expandOnce (g : Grid) (h w : ℕ) (v : ℤ) (comp : List (ℕ × ℕ)) :
    List (ℕ × ℕ) :=
  comp ++ ((comp.flatMap neighbors).filter
    (fun c => inBounds h w c && g.val c == v && !comp.contains c)).dedup

/-- The 4-connected equal-value component of `seed`: `h·w` expansion steps
reach the fixed point. -/
def floodFill (g : Grid) (h w : ℕ) (seed : ℕ × ℕ) : List (ℕ × ℕ) :=
  (expandOnce g h w (g.val seed))^[h * w] [seed]

/-- The directed boundary edges contributed by one cell of a component, in
pixel-corner coordinates `(x = col, y = row)`, oriented with the component
interior on the left: left edge downward, bottom edge rightward, right
edge upward, top edge leftward. -/
def cellEdges (comp : List (ℕ × ℕ)) (rc : ℕ × ℕ) :
    List ((ℕ × ℕ) × (ℕ × ℕ)) :=
  let r := rc.1
  let c := rc.2
  (if c = 0 || !comp.contains (r, c - 1) then [((c, r), (c, r + 1))] else [])
    ++ (if !comp.contains (r + 1, c) then [((c, r + 1), (c + 1, r + 1))] else [])
    ++ (if !comp.contains (r, c + 1) then [((c + 1, r + 1), (c + 1, r))] else [])
    ++ (if r = 0 || !comp.contains (r - 1, c) then [((c + 1, r), (c, r))] else [])

/-- All directed boundary edges of a component. -/
def boundaryEdges (comp : List (ℕ × ℕ)) : List ((ℕ × ℕ) × (ℕ × ℕ)) :=
  comp.flatMap (cellEdges comp)

/-- Follow the directed boundary edges from vertex `v` until the ring
closes at `start` (fuel-bounded walk). -/
def traceSteps (edges : List ((ℕ × ℕ) × (ℕ × ℕ))) (start : ℕ × ℕ) :
    ℕ → ℕ × ℕ → List (ℕ × ℕ)
  | 0, _ => []
  | fuel + 1, v =>
    match edges.find? (fun e => e.1 == v) with
    | none => []
    | some e =>
      if e.2 == start then [start] else e.2 :: traceSteps edges start fuel e.2

/-- The closed exterior ring of a component, started at the top-left corner
of the component's first (raster-scan-least) cell. -/
def traceRing (comp : List (ℕ × ℕ)) : List (ℕ × ℕ) :=
  let seed := comp.headD (0, 0)
  let start := (seed.2, seed.1)
  let edges := boundaryEdges comp
  start :: traceSteps edges start (edges.length + 1) start

/-- Components of the grid in raster-scan order of their first cell: scan
the cells, flood-filling from each cell not already covered; each
component is paired with the pixel value at its seed cell. -/
def componentsAux (g : Grid) (h w : ℕ) :
    List (ℕ × ℕ) → List (ℕ × ℕ) → List (List (ℕ × ℕ) × ℤ)
  | [], _ => []
  | c :: rest, visited =>
    if c ∈ visited then componentsAux g h w rest visited
    else
      let comp := floodFill g h w c
      (comp, g.val c) :: componentsAux g h w rest (visited ++ comp)

/-- Executable model of `rasterio.features.shapes(array)` on a grid:
one single-ring pixel-coordinate polygon per equal-value 4-connected
component, carrying the component's pixel value. -/
def rshapes (g : Grid) : List RShape :=
  (componentsAux g g.h g.w (cellsOf g.h g.w) []).map
    (fun cv =>
      { gtype := "Polygon"
        rings := [(traceRing cv.1).map (fun p => ((p.1 : ℚ), (p.2 : ℚ)))]
        value := cv.2 })

/-! ## `FloodProcess.pop_flood`, lines 183–197 -/

/-- Model of the Python string method `s.endswith(suffix)`: the suffix
test on the character lists of the two strings. -/
def endswith (s suffix : String) : Bool :=
  List.isSuffixOf suffix.data s.data

/-- `pop_flood`: fold over the directory listing of the shapefiles folder,
keeping only names ending in `.shp`, reading each file and appending its
records to the combined frame (`combined_gdf.append(gdf, ignore_index=True)`).
A file is modelled as its name paired with its list of records. -/
def pop_flood {α : Type} (files : List (String × List α)) : List α :=
  files.foldl
    (fun combined_gdf f =>
      if endswith f.1 ".shp" then combined_gdf ++ f.2 else combined_gdf)
    []

/-! ## `FloodProcess.flood_pop_overlay`, lines 207–223 -/

/-- A geometry, modelled as a finite set of unit cells (list of cell
indices); geometric intersection is then set intersection. -/
abbrev Geom : Type := List (ℤ × ℤ)

/-- Geometric intersection of two geometries in the cell-set model. -/
def ginter (a b : Geom) : Geom := a.filter (fun c => b.contains c)

/-- One row of the population CSV (`data`), keyed by its `GID_1` column. -/
structure PopRec where
  gid1 : String
  population : ℤ
deriving DecidableEq, Repr

/-- One row of the boundary shapefile (`country_boundaries`): a geometry
plus its attribute columns (`GID_1`, `GID_2`, names, …) as a key-value
list. -/
structure BndRec where
  attrs : List (String × String)
  geom : Geom
deriving DecidableEq, Repr

/-- Column lookup on a boundary row (empty string when absent). -/
def getAttr (b : BndRec) (k : String) : String :=
  ((b.attrs.find? (fun kv => kv.1 == k)).map (fun kv => kv.2)).getD ""

/-- One record of a hazard-polygon shapefile: geometry plus the intensity
value written by `process_tif`. -/
structure HazRec where
  geomH : Geom
  value : ℤ
deriving DecidableEq, Repr

/-- Model of `country_boundaries.merge(data, left_on = 'GID_1',
right_on = 'GID_1')` (line 218): the pandas default inner join — every
pair of a boundary row and a population row whose `k`-column and `GID_1`
key coincide, in left-row-major order. -/
def mergeOn (k : String) (bs : List BndRec) (ps : List PopRec) :
    List (BndRec × PopRec) :=
  bs.flatMap (fun b =>
    (ps.filter (fun p => p.gid1 == getAttr b k)).map (fun p => (b, p)))

/-- One row of the overlay result: the attributes of the joined
population–boundary row, the hazard intensity, and the intersected
geometry. -/
structure XRec where
  battrs : List (String × String)
  population : ℤ
  hvalue : ℤ
  geomX : Geom
deriving DecidableEq, Repr

/-- Model of `gpd.overlay(pop_bound_flood, combined_gdf,
how = 'intersection')` (line 223): every pair of rows from the two
frames whose geometries intersect yields one row carrying the attributes
of both together with the intersection geometry. -/
def overlayIntersection (xs : List (BndRec × PopRec)) (hs : List HazRec) :
    List XRec :=
  xs.flatMap (fun bp =>
    hs.filterMap (fun hz =>
      if (ginter bp.1.geom hz.geomH).isEmpty then none
      else some ⟨bp.1.attrs, bp.2.population, hz.value,
        ginter bp.1.geom hz.geomH⟩))

/-- `flood_pop_overlay` for one boundary shapefile: merge the boundary
rows with the population CSV on the fixed column `'GID_1'` (line 218),
combine all persisted hazard shapefiles with `pop_flood` (line 220), and
intersect the two frames (line 223).  The function performs no emptiness
check and raises no error of its own. -/
def flood_pop_overlay (data : List PopRec) (country_boundaries : List BndRec)
    (shapefiles : List (String × List HazRec)) : List XRec :=
  overlayIntersection (mergeOn "GID_1" country_boundaries data)
    (pop_flood shapefiles)

/-! ## Shared helper lemmas -/

/-- `getD` through a `map`, at an in-range index. -/
theorem getD_map_of_lt {α β : Type} (f : α → β) :
    ∀ (l : List α) (i : ℕ), i < l.length → ∀ (d : β) (d' : α),
      (l.map f).getD i d = f (l.getD i d')
  | [], i, h, _, _ => absurd h (by simp)
  | _ :: _, 0, _, _, _ => rfl
  | _ :: tl, i + 1, h, d, d' => getD_map_of_lt f tl i (by simpa using h) d d'

/-- Membership in the pandas-style inner join: a pair is joined exactly
when both rows are present and their key columns coincide. -/
theorem mem_mergeOn (k : String) (bs : List BndRec) (ps : List PopRec)
    (b : BndRec) (p : PopRec) :
    (b, p) ∈ mergeOn k bs ps ↔ b ∈ bs ∧ p ∈ ps ∧ p.gid1 = getAttr b k := by
  unfold mergeOn
  simp only [List.mem_flatMap, List.mem_map, List.mem_filter, Prod.mk.injEq,
    beq_iff_eq]
  constructor
  · rintro ⟨b', hb', p', ⟨hp', hkey⟩, hb, hp⟩
    subst hb; subst hp
    exact ⟨hb', hp', hkey⟩
  · rintro ⟨hb, hp, hkey⟩
    exact ⟨b, hb, p, ⟨hp, hkey⟩, rfl, rfl⟩

/-- Fold accumulating the records of the `.shp` files equals the
concatenation of those files' record lists. -/
theorem pop_flood_foldl {α : Type} :
    ∀ (files : List (String × List α)) (init : List α),
      files.foldl
          (fun acc f => if endswith f.1 ".shp" then acc ++ f.2 else acc) init
        = init ++ (files.filter (fun f => endswith f.1 ".shp")).flatMap
            (fun f => f.2) := by
  intro files
  induction files with
  | nil => intro init; simp
  | cons f fs ih =>
    intro init
    by_cases h : endswith f.1 ".shp" = true <;>
      simp [List.foldl_cons, h, ih, List.append_assoc]

/-- Every component emitted by the scan carries the pixel value of one of
the scanned seed cells. -/
theorem componentsAux_value_mem (g : Grid) (h w : ℕ) :
    ∀ (todo visited : List (ℕ × ℕ)) (cv : List (ℕ × ℕ) × ℤ),
      cv ∈ componentsAux g h w todo visited → ∃ c ∈ todo, cv.2 = g.val c := by
  intro todo
  induction todo with
  | nil =>
    intro visited cv hcv
    simp [componentsAux] at hcv
  | cons c rest ih =>
    intro visited cv hcv
    unfold componentsAux at hcv
    split at hcv
    · rcases ih _ _ hcv with ⟨c', hc', hv⟩
      exact ⟨c', List.mem_cons_of_mem _ hc', hv⟩
    · rcases List.mem_cons.mp hcv with h1 | h1
      · exact ⟨c, List.mem_cons_self c rest, by rw [h1]⟩
      · rcases ih _ _ h1 with ⟨c', hc', hv⟩
        exact ⟨c', List.mem_cons_of_mem _ hc', hv⟩

/-- A cell of the raster-scan enumeration is in range. -/
theorem mem_cellsOf {h w : ℕ} {rc : ℕ × ℕ} (hm : rc ∈ cellsOf h w) :
    rc.1 < h ∧ rc.2 < w := by
  unfold cellsOf at hm
  simp only [List.mem_flatMap, List.mem_map, List.mem_range] at hm
  rcases hm with ⟨r, hr, c, hc, rfl⟩
  exact ⟨hr, hc⟩

/-! ## Claims -/

/-- C1 counterexample: a region box entirely outside the hazard raster
extent.  The claim asserts the clip step produces an empty zero-area
result without raising; instead `mask(..., crop = True)` raises
`ValueError` ("Input shapes do not overlap raster."), and
`process_flood_tiff` has no handler for it. -/
theorem c1_nonoverlap_counterexample :
    process_flood_tiff_clip ⟨0, 0, 10, 10⟩ ⟨20, 20, 30, 30⟩ =
      Except.error MaskError.valueError := rfl

/-- C1 (amended): for every region whose bounds do not overlap the hazard
raster extent, the clip step of `process_flood_tiff` raises `ValueError`
(model: returns `Except.error`) rather than producing an empty clipped
result; the error is not caught inside `process_flood_tiff`. -/
theorem c1_nonoverlap_raises (hazard region : Box)
    (h : hazard.intersects region = false) :
    process_flood_tiff_clip hazard region = Except.error MaskError.valueError := by
  unfold process_flood_tiff_clip rasterio_mask_crop
  simp [h]

/-- C1 witness: the amended theorem applied at a concrete disjoint pair. -/
theorem c1_nonoverlap_raises_witness :
    process_flood_tiff_clip ⟨0, 0, 1, 1⟩ ⟨5, 5, 6, 6⟩ =
      Except.error MaskError.valueError :=
  c1_nonoverlap_raises ⟨0, 0, 1, 1⟩ ⟨5, 5, 6, 6⟩ (by decide)

/-- C2: every feature emitted by the vectorization loop of `process_tif`
has an intensity value strictly greater than 0 and different from the
no-data sentinel 255. -/
theorem c2_vectorize_value_filter (t : Affine) (shps : List RShape)
    (p : OutFeature) (hp : p ∈ process_tif t shps) :
    p.value > 0 ∧ p.value ≠ 255 := by
  rcases List.mem_filterMap.mp hp with ⟨s, _, hs⟩
  unfold processShape at hs
  split at hs
  · rename_i hcond
    cases hs
    exact ⟨hcond.1, hcond.2⟩
  · exact absurd hs (by simp)

/-- C2 witness: the filter theorem applied to the single output feature
of a concrete one-shape run. -/
theorem c2_vectorize_value_filter_witness :
    ({ gtype := "Polygon"
       coordinates := [[((0 : ℚ), (0 : ℚ))]]
       value := 3 } : OutFeature).value > 0 ∧
      ({ gtype := "Polygon"
         coordinates := [[((0 : ℚ), (0 : ℚ))]]
         value := 3 } : OutFeature).value ≠ 255 :=
  c2_vectorize_value_filter ⟨1, 0, 0, 0, 1, 0⟩
    [⟨"Polygon", [[(0, 0)]], 3⟩] _
    (by norm_num [process_tif, processShape, Affine.apply])

/-- C4: every feature emitted by `process_tif` is obtained from some
traced shape by applying the raster transform to each vertex of the
shape's first ring individually — vertex `i` of the output equals the
transform applied to vertex `i` of the traced ring. -/
theorem c4_vertexwise_affine_transform (t : Affine) (shps : List RShape)
    (p : OutFeature) (hp : p ∈ process_tif t shps) :
    ∃ s ∈ shps,
      p.coordinates = [(s.rings.headD []).map (fun i => t.apply i)] ∧
      ∀ i, i < (s.rings.headD []).length →
        (p.coordinates.headD []).getD i (0, 0) =
          t.apply ((s.rings.headD []).getD i (0, 0)) := by
  rcases List.mem_filterMap.mp hp with ⟨s, hsmem, hs⟩
  unfold processShape at hs
  split at hs
  · cases hs
    refine ⟨s, hsmem, rfl, ?_⟩
    intro i hi
    simpa using getD_map_of_lt (fun v => t.apply v) _ i hi (0, 0) (0, 0)
  · exact absurd hs (by simp)

/-- C4 witness: the transform theorem applied to a concrete run with a
two-vertex ring and the transform `(x, y) ↦ (x + 10, -y)`. -/
theorem c4_vertexwise_affine_transform_witness :
    ∃ s ∈ [(⟨"Polygon", [[(0, 0), (2, 3)]], 7⟩ : RShape)],
      ({ gtype := "Polygon"
         coordinates := [[((10 : ℚ), (0 : ℚ)), ((12 : ℚ), (-3 : ℚ))]]
         value := 7 } : OutFeature).coordinates =
          [(s.rings.headD []).map
            (fun i => Affine.apply ⟨1, 0, 10, 0, -1, 0⟩ i)] ∧
      ∀ i, i < (s.rings.headD []).length →
        (({ gtype := "Polygon"
            coordinates := [[((10 : ℚ), (0 : ℚ)), ((12 : ℚ), (-3 : ℚ))]]
            value := 7 } : OutFeature).coordinates.headD []).getD i (0, 0) =
          Affine.apply ⟨1, 0, 10, 0, -1, 0⟩
            ((s.rings.headD []).getD i (0, 0)) :=
  c4_vertexwise_affine_transform ⟨1, 0, 10, 0, -1, 0⟩
    [⟨"Polygon", [[(0, 0), (2, 3)]], 7⟩] _
    (by norm_num [process_tif, processShape, Affine.apply])

/-- C6: `pop_flood` is the plain concatenation of the records of the
persisted `.shp` hazard files: it equals their flattened record lists,
its length is the sum of the files' record counts, and every record —
duplicates included — keeps its total multiplicity (no deduplication or
merge-by-key). -/
theorem c6_pop_flood_plain_concatenation {α : Type} [DecidableEq α]
    (files : List (String × List α)) :
    pop_flood files
        = (files.filter (fun f => endswith f.1 ".shp")).flatMap (fun f => f.2) ∧
      (pop_flood files).length
        = ((files.filter (fun f => endswith f.1 ".shp")).map
            (fun f => f.2.length)).sum ∧
      ∀ r : α, (pop_flood files).count r
        = ((files.filter (fun f => endswith f.1 ".shp")).map
            (fun f => f.2.count r)).sum := by
  have he : pop_flood files
      = (files.filter (fun f => endswith f.1 ".shp")).flatMap (fun f => f.2) := by
    unfold pop_flood
    simpa using pop_flood_foldl files []
  refine ⟨he, ?_, ?_⟩
  · rw [he]
    induction files.filter (fun f => endswith f.1 ".shp") with
    | nil => simp
    | cons f fs ih => simp [ih]
  · intro r
    rw [he]
    induction files.filter (fun f => endswith f.1 ".shp") with
    | nil => simp
    | cons f fs ih => simp [ih]

/-- C10: the vectorization loop keeps only the first coordinate ring of a
traced shape (`vec[0]['coordinates'][0]`): the output is unchanged when
the shape's interior rings are dropped, and every emitted feature has
exactly one ring. -/
theorem c10_only_first_ring_kept (t : Affine) (s : RShape) :
    processShape t s
        = processShape t ⟨s.gtype, [s.rings.headD []], s.value⟩ ∧
      ∀ p, processShape t s = some p → p.coordinates.length = 1 := by
  constructor
  · unfold processShape
    simp
  · intro p hp
    unfold processShape at hp
    split at hp
    · cases hp
      rfl
    · exact absurd hp (by simp)

/-- C10 witness: a traced shape with an interior ring (a hole) yields the
same feature as the shape with the hole discarded, and that feature has a
single ring. -/
theorem c10_only_first_ring_kept_witness :
    processShape (⟨1, 0, 0, 0, 1, 0⟩ : Affine)
          ⟨"Polygon",
            [[(0, 0), (0, 3), (3, 3), (3, 0), (0, 0)],
             [(1, 1), (1, 2), (2, 2), (2, 1), (1, 1)]], 5⟩
        = processShape ⟨1, 0, 0, 0, 1, 0⟩
            ⟨"Polygon", [[(0, 0), (0, 3), (3, 3), (3, 0), (0, 0)]], 5⟩ ∧
      ({ gtype := "Polygon"
         coordinates := [[((0 : ℚ), (0 : ℚ)), (0, 3), (3, 3), (3, 0), (0, 0)]]
         value := 5 } : OutFeature).coordinates.length = 1 :=
  ⟨(c10_only_first_ring_kept ⟨1, 0, 0, 0, 1, 0⟩
      ⟨"Polygon",
        [[(0, 0), (0, 3), (3, 3), (3, 0), (0, 0)],
         [(1, 1), (1, 2), (2, 2), (2, 1), (1, 1)]], 5⟩).1,
   (c10_only_first_ring_kept ⟨1, 0, 0, 0, 1, 0⟩
      ⟨"Polygon",
        [[(0, 0), (0, 3), (3, 3), (3, 0), (0, 0)],
         [(1, 1), (1, 2), (2, 2), (2, 1), (1, 1)]], 5⟩).2 _
     (by norm_num [processShape, Affine.apply])⟩

/-- C3: on the 2×2 raster whose top-left cell holds intensity 3 and whose
other cells hold the no-data value 255, the vectorization pass produces
exactly one polygon, of intensity 3, whose ring is the affine image of
that single cell's pixel footprint (the unit square with corners (0,0),
(0,1), (1,1), (1,0)), each corner transformed individually. -/
theorem c3_single_cell_scenario (t : Affine) :
    process_tif t (rshapes [[3, 255], [255, 255]])
      = [{ gtype := "Polygon"
           coordinates := [[t.apply (0, 0), t.apply (0, 1), t.apply (1, 1),
                            t.apply (1, 0), t.apply (0, 0)]]
           value := 3 }] := by
  have h : rshapes [[3, 255], [255, 255]]
      = [⟨"Polygon", [[((0 : ℚ), (0 : ℚ)), (0, 1), (1, 1), (1, 0), (0, 0)]], 3⟩,
         ⟨"Polygon",
           [[((1 : ℚ), (0 : ℚ)), (1, 1), (0, 1), (0, 2), (1, 2), (2, 2),
             (2, 1), (2, 0), (1, 0)]], 255⟩] := by
    decide
  rw [h]
  simp +decide [process_tif, processShape, List.filterMap_cons]

/-- C5: a clipped raster all of whose cells hold the no-data value 255
vectorizes to the empty sequence: every traced component carries value
255 and is discarded by the filter. -/
theorem c5_uniform_nodata_empty_output (t : Affine) (g : Grid)
    (hrect : ∀ row ∈ g, row.length = g.w)
    (hval : ∀ row ∈ g, ∀ v ∈ row, v = 255) :
    process_tif t (rshapes g) = [] := by
  unfold process_tif
  rw [List.filterMap_eq_nil_iff]
  intro s hs
  unfold rshapes at hs
  rcases List.mem_map.mp hs with ⟨cv, hcv, rfl⟩
  rcases componentsAux_value_mem g g.h g.w _ _ _ hcv with ⟨c, hc, hv⟩
  rcases mem_cellsOf hc with ⟨h1, h2⟩
  have hrow_mem : List.getD g c.1 [] ∈ g := by
    rw [List.getD_eq_getElem?_getD, List.getElem?_eq_getElem h1,
      Option.getD_some]
    exact List.getElem_mem h1
  have hlen : (List.getD g c.1 []).length = g.w := hrect _ hrow_mem
  have h2' : c.2 < (List.getD g c.1 []).length := by rw [hlen]; exact h2
  have hcell : Grid.val g c = 255 := by
    unfold Grid.val
    rw [List.getD_eq_getElem?_getD, List.getElem?_eq_getElem h2',
      Option.getD_some]
    exact hval _ hrow_mem _ (List.getElem_mem h2')
  simp [processShape, hv.trans hcell]

/-- C5 witness: the uniform-no-data theorem applied to a concrete 2×2
all-255 raster. -/
theorem c5_uniform_nodata_empty_output_witness :
    process_tif ⟨1, 0, 0, 0, 1, 0⟩ (rshapes [[255, 255], [255, 255]]) = [] :=
  c5_uniform_nodata_empty_output ⟨1, 0, 0, 0, 1, 0⟩ [[255, 255], [255, 255]]
    (by decide) (by decide)

/-- C7: `flood_pop_overlay` joins population records to boundary rows as a
pandas inner join on the region code — a pair is in the joined data
exactly when both rows are present and their keys match, so unmatched
rows on either side are absent — and every overlay result comes from one
joined row and one hazard row with intersecting geometries, carrying the
attributes of both. -/
theorem c7_inner_join_then_intersection (data : List PopRec)
    (bs : List BndRec) (fs : List (String × List HazRec)) :
    (∀ b p, (b, p) ∈ mergeOn "GID_1" bs data ↔
        b ∈ bs ∧ p ∈ data ∧ p.gid1 = getAttr b "GID_1") ∧
      ∀ x, x ∈ flood_pop_overlay data bs fs ↔
        ∃ b p hz, (b, p) ∈ mergeOn "GID_1" bs data ∧ hz ∈ pop_flood fs ∧
          ginter b.geom hz.geomH ≠ [] ∧
          x = ⟨b.attrs, p.population, hz.value, ginter b.geom hz.geomH⟩ := by
  refine ⟨fun b p => mem_mergeOn "GID_1" bs data b p, fun x => ?_⟩
  unfold flood_pop_overlay overlayIntersection
  simp only [List.mem_flatMap, List.mem_filterMap]
  constructor
  · rintro ⟨bp, hbp, hz, hhz, heq⟩
    split at heq
    · exact absurd heq (by simp)
    · rename_i hne
      cases heq
      exact ⟨bp.1, bp.2, hz, hbp, hhz, by simpa using hne, rfl⟩
  · rintro ⟨b, p, hz, hbp, hhz, hne, rfl⟩
    refine ⟨(b, p), hbp, hz, hhz, ?_⟩
    rw [if_neg (by simpa using hne)]

/-- C7 witness: the join-characterization applied at a one-row instance
whose keys match. -/
theorem c7_inner_join_then_intersection_witness :
    ((⟨[("GID_1", "USA.1_1")], [((0 : ℤ), (0 : ℤ))]⟩ : BndRec),
      (⟨"USA.1_1", 100⟩ : PopRec)) ∈
      mergeOn "GID_1" [⟨[("GID_1", "USA.1_1")], [((0 : ℤ), (0 : ℤ))]⟩]
        [⟨"USA.1_1", 100⟩] :=
  ((c7_inner_join_then_intersection [⟨"USA.1_1", 100⟩]
      [⟨[("GID_1", "USA.1_1")], [((0 : ℤ), (0 : ℤ))]⟩] []).1 _ _).mpr
    ⟨by decide, by decide, by decide⟩

/-- C8 counterexample: the joined population–boundary collection is empty
(the only population key does not match the only boundary key) and the
hazard collection is non-empty; the claim requires a failure with
`OverlayError`, but `flood_pop_overlay` — which contains no emptiness
check and defines no such error — completes and returns the empty
collection as a valid result. -/
theorem c8_empty_join_no_error_counterexample :
    flood_pop_overlay [⟨"KEN.1_1", 100⟩]
        [⟨[("GID_1", "USA.1_1")], [((0 : ℤ), (0 : ℤ))]⟩]
        [("USA.1.shp", [⟨[((0 : ℤ), (0 : ℤ))], 3⟩])]
      = [] := by
  decide

/-- C8 (amended): `flood_pop_overlay` never fails on degenerate inputs:
whenever every joined row's geometry misses every hazard geometry — in
particular when either the joined collection or the combined hazard
collection is empty — it returns the empty collection as a valid
result. -/
theorem c8_degenerate_inputs_empty_result (data : List PopRec)
    (bs : List BndRec) (fs : List (String × List HazRec))
    (h : ∀ bp ∈ mergeOn "GID_1" bs data, ∀ hz ∈ pop_flood fs,
      ginter bp.1.geom hz.geomH = []) :
    flood_pop_overlay data bs fs = [] := by
  unfold flood_pop_overlay overlayIntersection
  rw [List.flatMap_eq_nil_iff]
  intro bp hbp
  rw [List.filterMap_eq_nil_iff]
  intro hz hhz
  simp [h bp hbp hz hhz]

/-- C8 witness: the amended theorem applied to non-empty collections with
disjoint geometries. -/
theorem c8_degenerate_inputs_empty_result_witness :
    flood_pop_overlay [⟨"USA.1_1", 100⟩]
        [⟨[("GID_1", "USA.1_1")], [((0 : ℤ), (0 : ℤ))]⟩]
        [("USA.1.shp", [⟨[((5 : ℤ), (5 : ℤ))], 3⟩])]
      = [] :=
  c8_degenerate_inputs_empty_result [⟨"USA.1_1", 100⟩]
    [⟨[("GID_1", "USA.1_1")], [((0 : ℤ), (0 : ℤ))]⟩]
    [("USA.1.shp", [⟨[((5 : ℤ), (5 : ℤ))], 3⟩])] (by decide)

/-- C9: the population-to-boundary join of `flood_pop_overlay` is
performed on the fixed column name `"GID_1"`: the overlay is built from
`mergeOn "GID_1"` whatever the configured level is, joined pairs are
determined by the `GID_1` column alone, the configured level's column
`gid_level r` equals `"GID_1"` only for `r = 1`, and it differs from
`"GID_1"` at every other GADM level `r ∈ {0, 2, 3, 4, 5}`. -/
theorem c9_join_on_fixed_gid1_column (data : List PopRec)
    (bs : List BndRec) (fs : List (String × List HazRec)) :
    flood_pop_overlay data bs fs
        = overlayIntersection (mergeOn "GID_1" bs data) (pop_flood fs) ∧
      (∀ b p, (b, p) ∈ mergeOn "GID_1" bs data ↔
        b ∈ bs ∧ p ∈ data ∧ p.gid1 = getAttr b "GID_1") ∧
      gid_level 1 = "GID_1" ∧
      ∀ r ∈ [0, 2, 3, 4, 5], gid_level r ≠ "GID_1" := by
  exact ⟨rfl, fun b p => mem_mergeOn "GID_1" bs data b p, by decide, by decide⟩

/-- C9 witness: the fixed-column theorem applied at empty frames, giving
the concrete column-name facts. -/
theorem c9_join_on_fixed_gid1_column_witness :
    gid_level 1 = "GID_1" ∧ gid_level 2 ≠ "GID_1" :=
  ⟨(c9_join_on_fixed_gid1_column [] [] []).2.2.1,
   (c9_join_on_fixed_gid1_column [] [] []).2.2.2 2 (by decide)⟩

end Glanvup
